import Mathlib

/-!
Shallow embedding of the XsdLibrary resolution engine (XsdLibrary.js):
a catalog of parsed XSD documents keyed by target namespace, with
name lookup, restriction/extension chain walking, facet collection and
instance-node-to-definition mapping.  XML DOM nodes are modelled as a
nested inductive tree; JavaScript `null` is modelled by `Option`;
JavaScript exceptions (TypeError on null dereference) by `Except Unit`;
the unbounded `while`/`do-while` loops of the source by an explicit fuel
parameter, where a `none` result means the loop was still running when
the fuel ran out (i.e. the source has not terminated after that many
iterations).
-/

/-- The XML Schema namespace constant (`xsd.xs` in the source). -/
def xsNs : String := "http://www.w3.org/2001/XMLSchema"

/-- The XML Schema instance namespace constant (`xsd.xsi` in the source). -/
def xsiNs : String := "http://www.w3.org/2001/XMLSchema-instance"

/-- A DOM element node: namespace URI, local name, un-namespaced
attributes (name, value), namespaced attributes (ns, name, value) and
child element nodes.  A parsed XSD document is modelled by its
document element. -/
inductive XNode : Type where
  | mk : String → String → List (String × String) → List (String × String × String) → List XNode → XNode

def XNode.namespaceURI : XNode → String
  | .mk ns _ _ _ _ => ns

def XNode.localName : XNode → String
  | .mk _ ln _ _ _ => ln

def XNode.attrs : XNode → List (String × String)
  | .mk _ _ as _ _ => as

def XNode.nsAttrs : XNode → List (String × String × String)
  | .mk _ _ _ nas _ => nas

def XNode.children : XNode → List XNode
  | .mk _ _ _ _ cs => cs

/-- DOM `getAttribute`: `none` models the JS `null` result for an absent
attribute. -/
def XNode.getAttribute (n : XNode) (a : String) : Option String :=
  (n.attrs.find? (fun p => p.1 == a)).map (fun p => p.2)

/-- DOM `getAttributeNS`. -/
def XNode.getAttributeNS (n : XNode) (ns a : String) : Option String :=
  (n.nsAttrs.find? (fun p => p.1 == ns && p.2.1 == a)).map (fun p => p.2.2)

/-- A namespace-qualified name, the universal lookup key. -/
structure QName : Type where
  namespaceURI : String
  name : String

/-- Splits a character list at the first colon, if any. -/
def splitAtColon : List Char → Option (List Char × List Char)
  | [] => none
  | c :: cs =>
    if c = ':' then some ([], cs)
    else
      match splitAtColon cs with
      | some (p, r) => some (c :: p, r)
      | none => none

/-- Modelled from the spec: resolution of a namespace declaration (an XML
prefix) to its namespace URI, performed by the SchemaTree collaborator.
The `xs` and `xsi` declarations map to the fixed schema namespaces; any
other declaration `p` is modelled as mapping to the URI `urn:p`. -/
def nsOfDecl (p : String) : String :=
  if p = "xs" then xsNs
  else if p = "xsi" then xsiNs
  else String.append "urn:" p

/-- Modelled from the spec: turning an attribute value such as `ns:Foo`
into a `QName` by resolving the declaration before the colon; a value
without a colon is modelled as belonging to the default namespace
`urn:default`. -/
def qnameOfRef (v : String) : QName :=
  match splitAtColon v.data with
  | some (p, r) => ⟨nsOfDecl ⟨p⟩, ⟨r⟩⟩
  | none => ⟨"urn:default", v⟩

/-- Modelled from the spec: the SchemaTree primitive
`getTypeFromNodeAttr(node, attrName, attrNS?) -> QualifiedName?` — reads
a type reference from an attribute and resolves it; not-found if the
attribute is absent. -/
def getTypeFromNodeAttr (node : XNode) (attrName : String) (attrNS : Option String) : Option QName :=
  match (match attrNS with
         | some ns => node.getAttributeNS ns attrName
         | none => node.getAttribute attrName) with
  | some v => some (qnameOfRef v)
  | none => none

/-- Modelled from the spec: the SchemaTree primitive `getEmbeddedType`,
extracting an embedded anonymous type definition (a `complexType` or
`simpleType` child). -/
def getEmbeddedType (node : XNode) : Option XNode :=
  node.children.find? (fun c =>
    c.namespaceURI == xsNs && (c.localName == "complexType" || c.localName == "simpleType"))

/-- True of an `xs:element` node whose `name` attribute equals `name`. -/
def isElementNamed (name : String) (n : XNode) : Bool :=
  n.namespaceURI == xsNs && n.localName == "element" && n.getAttribute "name" == some name

mutual

/-- Depth-first search of one node (itself, then its descendants) for an
`xs:element` named `name`. -/
def findElementNode (name : String) : XNode → Option XNode
  | XNode.mk ns ln as nas cs =>
    if isElementNamed name (XNode.mk ns ln as nas cs) then some (XNode.mk ns ln as nas cs)
    else findElementDFS name cs

/-- Depth-first document-order search of a node list (and all
descendants) for an `xs:element` named `name`. -/
def findElementDFS (name : String) : List XNode → Option XNode
  | [] => none
  | c :: rest =>
    match findElementNode name c with
    | some r => some r
    | none => findElementDFS name rest

end

/-- Modelled from the spec: the SchemaTree primitive
`findElement(tree, name) -> node?` — finds an `element` definition named
`name` inside `n` (a document root or a type definition's content). -/
def xsdFindElement (n : XNode) (name : String) : Option XNode :=
  findElementDFS name n.children

/-- Modelled from the spec: the SchemaTree primitive
`findTypeByName(tree, name)` — the first top-level `complexType` or
`simpleType` definition of the document named `name`.  Returned as a
nullable node, matching the contract the authoritative caller in the
source relies on (`@returns {Element|null}` and a plain truthiness
test on the result). -/
def xsdFindTypeByName (doc : XNode) (name : String) : Option XNode :=
  doc.children.find? (fun c =>
    c.namespaceURI == xsNs &&
    (c.localName == "complexType" || c.localName == "simpleType") &&
    c.getAttribute "name" == some name)

/-- Modelled from the spec: the SchemaTree primitive
`findRestrictingFacets(node) -> node[]` — the facet nodes declared under
the node's `restriction` child (empty when there is none). -/
def xsdFindRestrictingFacets (node : XNode) : List XNode :=
  match node.children.find? (fun c => c.namespaceURI == xsNs && c.localName == "restriction") with
  | some r => r.children
  | none => []

/-- Modelled from the spec: the SchemaTree primitive
`getComplexTypeContent(node)` — unwraps a `complexType` to its
`complexContent`/`simpleContent` child when it has one. -/
def getComplexTypeContent (node : XNode) : XNode :=
  match node.children.find? (fun c =>
      c.namespaceURI == xsNs && (c.localName == "complexContent" || c.localName == "simpleContent")) with
  | some r => r
  | none => node

mutual

/-- Depth-first collection over one node (itself, then its descendants)
of every node with the given XSD local name. -/
def collectByNameNode (target : String) : XNode → List XNode
  | XNode.mk ns ln as nas cs =>
    (if ns == xsNs && ln == target then [XNode.mk ns ln as nas cs] else []) ++
      collectByNameDFS target cs

/-- Depth-first document-order collection of every descendant with the
given XSD local name. -/
def collectByNameDFS (target : String) : List XNode → List XNode
  | [] => []
  | c :: rest => collectByNameNode target c ++ collectByNameDFS target rest

end

/-- Modelled from the spec: the SchemaTree primitive
`getComplexTypeElements(node) -> node[]` — the child particle (`element`)
nodes of one complex type's content model. -/
def xsdGetComplexTypeElements (node : XNode) : List XNode :=
  collectByNameDFS "element" node.children

/-- Modelled from the spec: the SchemaTree primitive
`getComplexTypeAsserts(node) -> node[]` — the assertion nodes of one
complex type. -/
def xsdGetComplexTypeAsserts (node : XNode) : List XNode :=
  collectByNameDFS "assert" node.children

/-- Modelled from the spec: the SchemaTree primitive
`getFirstFilteredAncestor(node, predicate)` observed through the callback
the source passes it: the instance node's ancestor chain is given
nearest-first, and the callback collects every ancestor visited, up to
and including the first one satisfying the predicate. -/
def collectAncestorsUntil (anc : List XNode) (pred : XNode → Bool) : List XNode :=
  match anc with
  | [] => []
  | a :: rest => if pred a then [a] else a :: collectAncestorsUntil rest pred

/-! ## The catalog (XsdLibrary plus its external Library base) -/

/-- The catalog state: the `items` mapping of the external Library
collaborator, an insertion-ordered map from a namespace key to the
ordered sequence of schema documents registered under it. -/
structure XsdLib : Type where
  items : List (String × List XNode)

/-- JS object property read: the value stored under the first matching
key, if any. -/
def lookupNs : List (String × List XNode) → String → Option (List XNode)
  | [], _ => none
  | p :: rest, k => if p.1 == k then some p.2 else lookupNs rest k

/-- JS object property write: replace an existing key's value in place,
or append a fresh key (object insertion order). -/
def storeNs : List (String × List XNode) → String → List XNode → List (String × List XNode)
  | [], k, v => [(k, v)]
  | p :: rest, k, v => if p.1 == k then (k, v) :: rest else p :: storeNs rest k v

/-- Modelled from the spec: the NamespaceStore collaborator's
`get(key) -> value?` (the Library `getItem`). -/
def getItem (st : XsdLib) (k : String) : Option (List XNode) :=
  lookupNs st.items k

/-- Modelled from the spec: the NamespaceStore collaborator's
`set(key, value)` (the `this.items[ns] = ...` assignment). -/
def setItem (st : XsdLib) (k : String) (v : List XNode) : XsdLib :=
  ⟨storeNs st.items k v⟩

/-- JavaScript `a || b` on the nullable string `a`: the empty string and
null are falsy. -/
def jsOrStr (a : Option String) (b : Option String) : Option String :=
  match a with
  | some s => if s == "" then b else some s
  | none => b

/-- The JS object-property key a namespace value is coerced to: a null
namespace becomes the key `"null"`. -/
def nsKey : Option String → String
  | some s => s
  | none => "null"

/-- `addItem(def, name?)` from the source: the namespace is `name` or,
when that is falsy, the document element's `targetNamespace` attribute;
the document is appended to that namespace's collection (created when
absent). -/
def addItem (st : XsdLib) (d : XNode) (name : Option String) : XsdLib :=
  let ns := jsOrStr name (d.getAttribute "targetNamespace")
  let key := nsKey ns
  let coll := (getItem st key).getD []
  setItem st key (coll ++ [d])

/-- Modelled from the spec: the bundled `basetypes.xsd` resource parsed
to a document.  Its content is irrelevant to the claims; its target
namespace is the fixed XML Schema namespace. -/
def basetypesDoc : XNode :=
  XNode.mk xsNs "schema" [("targetNamespace", xsNs)] [] []

/-- `init(defs)` from the source: prepends the parsed basetypes document
to `defs` and registers every document via `addItem` (the external
Library `init`, modelled from the spec, registers each document in
order starting from an empty store). -/
def initLib (defs : List XNode) : XsdLib :=
  (basetypesDoc :: defs).foldl (fun st d => addItem st d none) ⟨[]⟩

/-- The scan loop of `findElement`: try each document in registration
order, return the first truthy result. -/
def firstSomeElems (nm : String) : List XNode → Option XNode
  | [] => none
  | d :: ds =>
    match xsdFindElement d nm with
    | some e => some e
    | none => firstSomeElems nm ds

/-- `findElement(namespace, name)` from the source. -/
def findElement (st : XsdLib) (ns nm : String) : Option XNode :=
  firstSomeElems nm ((getItem st ns).getD [])

/-- The scan loop of `findTypeByName`: try each document in registration
order, return the first truthy result. -/
def firstSomeTypes (nm : String) : List XNode → Option XNode
  | [] => none
  | d :: ds =>
    match xsdFindTypeByName d nm with
    | some t => some t
    | none => firstSomeTypes nm ds

/-- `findTypeByName(namespace, name)` from the source. -/
def findTypeByName (st : XsdLib) (ns nm : String) : Option XNode :=
  firstSomeTypes nm ((getItem st ns).getD [])

/-- `findTypeDefinitionFromNodeAttr(node, typeAttr, typeAttrNS?)` from
the source. -/
def findTypeDefinitionFromNodeAttr (st : XsdLib) (node : XNode) (typeAttr : String) (typeAttrNS : Option String) : Option XNode :=
  match getTypeFromNodeAttr node typeAttr typeAttrNS with
  | some t => findTypeByName st t.namespaceURI t.name
  | none => none

/-- `findRestrictedType(node)` from the source: resolve the `base`
attribute of the node's `restriction` child, if any. -/
def findRestrictedType (st : XsdLib) (node : XNode) : Option XNode :=
  match node.children.find? (fun c => c.namespaceURI == xsNs && c.localName == "restriction") with
  | some el => findTypeDefinitionFromNodeAttr st el "base" none
  | none => none

/-- `findExtendedType(node)` from the source: unwrap a `complexType` to
its content, then resolve the `base` attribute of its `extension` child,
if any. -/
def findExtendedType (st : XsdLib) (node : XNode) : Option XNode :=
  let n := if node.localName == "complexType" then getComplexTypeContent node else node
  match n.children.find? (fun c => c.namespaceURI == xsNs && c.localName == "extension") with
  | some el => findTypeDefinitionFromNodeAttr st el "base" none
  | none => none

/-- The `do`/`while` loop of `findBaseTypeFor` with explicit fuel: `none`
means the source loop is still running after `fuel` iterations; the
inner `Option String` is the final `curr.getAttribute('name')`. -/
def findBaseTypeForAux (st : XsdLib) : Nat → XNode → Option (Option String)
  | 0, _ => none
  | n + 1, curr =>
    match findRestrictedType st curr with
    | some base => findBaseTypeForAux st n base
    | none => some (curr.getAttribute "name")

/-- `findBaseTypeFor(node)` from the source, fuel-bounded. -/
def findBaseTypeFor (st : XsdLib) (fuel : Nat) (node : XNode) : Option (Option String) :=
  findBaseTypeForAux st fuel node

/-- An entry of the heterogeneous array `collectFacets` returns: the
source pushes plain facet nodes and, per level, one array of that
level's enumeration facets. -/
inductive FacetEntry : Type where
  | facet : XNode → FacetEntry
  | enumGroup : List XNode → FacetEntry

/-- The mutable state of `collectFacets`: the result array, the current
level's enumeration bucket and the `foundFacetTypes` list. -/
structure CFState : Type where
  facets : List FacetEntry
  enums : List XNode
  found : List String

/-- The `processFacet` closure of `collectFacets` from the source. -/
def processFacet (st : CFState) (facet : XNode) : CFState :=
  let fname := facet.localName
  let isEnum := fname == "enumeration"
  let isAssertion := fname == "assertion"
  let isAlreadyFound := st.found.contains fname
  let isFixed := !isEnum && (isAssertion || facet.getAttribute "fixed" == some "true")
  if !isAlreadyFound || isFixed then
    if isEnum then { st with enums := st.enums ++ [facet] }
    else { st with facets := st.facets ++ [FacetEntry.facet facet], found := st.found ++ [fname] }
  else st

/-- The end of one `collectFacets` level: when the level's enumeration
bucket is non-empty, append it to the result as one group and record
`enumeration` as found. -/
def levelFinish (st : CFState) : CFState :=
  if st.enums.isEmpty then st
  else
    { st with facets := st.facets ++ [FacetEntry.enumGroup st.enums],
              found := st.found ++ ["enumeration"] }

/-- One level of the `collectFacets` loop body: process the level's
facets, then append the level's enumeration group when non-empty. -/
def collectFacetsLevel (t : XNode) (facets : List FacetEntry) (found : List String) : CFState :=
  levelFinish ((xsdFindRestrictingFacets t).foldl processFacet ⟨facets, [], found⟩)

/-- The `while (currType)` loop of `collectFacets` with explicit fuel:
`none` means the source loop is still running after `fuel` iterations. -/
def collectFacetsAux (st : XsdLib) : Nat → Option XNode → List FacetEntry → List String → Option (List FacetEntry)
  | 0, some _, _, _ => none
  | _, none, facets, _ => some facets
  | n + 1, some t, facets, found =>
    let lv := collectFacetsLevel t facets found
    collectFacetsAux st n (findRestrictedType st t) lv.facets lv.found

/-- `collectFacets(simpleType)` from the source, fuel-bounded. -/
def collectFacets (st : XsdLib) (fuel : Nat) (simpleType : XNode) : Option (List FacetEntry) :=
  collectFacetsAux st fuel (some simpleType) [] []

/-- The `while (curr)` loop of `getComplexTypeElements` with explicit
fuel and the accumulated `elems`. -/
def getCTElemsAux (st : XsdLib) : Nat → Option XNode → List XNode → Option (List XNode)
  | 0, some _, _ => none
  | _, none, acc => some acc
  | n + 1, some t, acc =>
    getCTElemsAux st n (findExtendedType st t) (acc ++ xsdGetComplexTypeElements t)

/-- `getComplexTypeElements(complexType)` from the source, fuel-bounded. -/
def getComplexTypeElements (st : XsdLib) (fuel : Nat) (ct : XNode) : Option (List XNode) :=
  getCTElemsAux st fuel (some ct) []

/-- The `while (curr)` loop of `getComplexTypeAsserts` with explicit
fuel and the accumulated `elems`. -/
def getCTAssertsAux (st : XsdLib) : Nat → Option XNode → List XNode → Option (List XNode)
  | 0, some _, _ => none
  | _, none, acc => some acc
  | n + 1, some t, acc =>
    getCTAssertsAux st n (findExtendedType st t) (acc ++ xsdGetComplexTypeAsserts t)

/-- `getComplexTypeAsserts(complexType)` from the source, fuel-bounded. -/
def getComplexTypeAsserts (st : XsdLib) (fuel : Nat) (ct : XNode) : Option (List XNode) :=
  getCTAssertsAux st fuel (some ct) []

/-- `findElementType(elem)` from the source.  The source reads
`tdef = xsd.getTypeFromNodeAttr(elem, 'type')` and then evaluates
`xsd.getEmbeddedType(elem) || this.findTypeByName(tdef.namespaceURI,
tdef.name)`; when the element has no embedded type and no `type`
attribute, `tdef` is null and the member access throws a TypeError,
modelled as `Except.error ()`. -/
def findElementType (st : XsdLib) (elem : XNode) : Except Unit (Option XNode) :=
  let tdef := getTypeFromNodeAttr elem "type" none
  match getEmbeddedType elem with
  | some t => Except.ok (some t)
  | none =>
    match tdef with
    | some q => Except.ok (findTypeByName st q.namespaceURI q.name)
    | none => Except.error ()

/-- `findXsdSubNode(xsdNode, name)` from the source.  A null `xsdNode`
makes the source's `xsdNode.localName` access throw, modelled as
`Except.error ()`; likewise `xsdNode.children[0]` on a childless
`element` wrapper yields undefined and the subsequent collaborator call
throws. -/
def findXsdSubNode (st : XsdLib) (xsdNode : Option XNode) (name : String) : Except Unit (Option XNode) :=
  match xsdNode with
  | none => Except.error ()
  | some n =>
    let redirected : Option XNode :=
      if n.localName == "element" then
        match findTypeDefinitionFromNodeAttr st n "type" none with
        | some t => some t
        | none => n.children.get? 0
      else some n
    match redirected with
    | some m => Except.ok (xsdFindElement m name)
    | none => Except.error ()

/-- The `_(parents.reverse()).each` loop of `findElementForXmlNode`:
the accumulator `xsdNode` starts null; a truthy accumulator descends one
level by the parent's local name, a null accumulator is replaced by the
parent's `xsi:type` resolution. -/
def descendLoop (st : XsdLib) : Option XNode → List XNode → Except Unit (Option XNode)
  | acc, [] => Except.ok acc
  | some n, p :: rest =>
    match findXsdSubNode st (some n) p.localName with
    | Except.ok acc' => descendLoop st acc' rest
    | Except.error e => Except.error e
  | none, p :: rest =>
    descendLoop st (findTypeDefinitionFromNodeAttr st p "type" (some xsiNs)) rest

/-- `findElementForXmlNode(node)` from the source, with the instance
node's ancestor chain (nearest first) made explicit: collect ancestors
up to and including the first carrying an `xsi:type`, process them
outermost first, and finally descend to the original node's local
name. -/
def findElementForXmlNode (st : XsdLib) (node : XNode) (ancestors : List XNode) : Except Unit (Option XNode) :=
  let parents := collectAncestorsUntil ancestors
    (fun c => (getTypeFromNodeAttr c "type" (some xsiNs)).isSome)
  match descendLoop st none parents.reverse with
  | Except.ok xsdNode => findXsdSubNode st xsdNode node.localName
  | Except.error e => Except.error e

/-! ## Concrete schema fixtures used by counterexamples and witnesses -/

/-- An `xs:restriction` node with a `base` attribute and the given facet
children. -/
def restrictionOf (base : String) (facets : List XNode) : XNode :=
  XNode.mk xsNs "restriction" [("base", base)] [] facets

/-- A named `xs:simpleType` node. -/
def simpleTypeNamed (nm : String) (kids : List XNode) : XNode :=
  XNode.mk xsNs "simpleType" [("name", nm)] [] kids

/-- A schema document element with target namespace `urn:t`. -/
def schemaT (kids : List XNode) : XNode :=
  XNode.mk xsNs "schema" [("targetNamespace", "urn:t")] [] kids

/-- An unfixed facet node such as `<xs:maxLength value="10"/>`. -/
def facetN (nm v : String) : XNode :=
  XNode.mk xsNs nm [("value", v)] [] []

/-- A facet node carrying `fixed="true"`. -/
def facetFixed (nm v : String) : XNode :=
  XNode.mk xsNs nm [("value", v), ("fixed", "true")] [] []

/-- An enumeration facet node. -/
def enumFacet (v : String) : XNode :=
  XNode.mk xsNs "enumeration" [("value", v)] [] []

/-- A named `xs:element` declaration with no children. -/
def elemNamed (nm : String) : XNode :=
  XNode.mk xsNs "element" [("name", nm)] [] []

/-- Cyclic chain: simpleType `A` restricting `t:B`. -/
def typeA : XNode := simpleTypeNamed "A" [restrictionOf "t:B" []]

/-- Cyclic chain: simpleType `B` restricting `t:A`. -/
def typeB : XNode := simpleTypeNamed "B" [restrictionOf "t:A" []]

/-- A document whose two simple types restrict each other. -/
def cycDoc : XNode := schemaT [typeA, typeB]

/-- The catalog holding the cyclic-chain document. -/
def cycLib : XsdLib := initLib [cycDoc]

/-- Enumeration chain: derived type with one enumeration facet,
restricting `t:B2`. -/
def typeA2 : XNode := simpleTypeNamed "A2" [restrictionOf "t:B2" [enumFacet "x"]]

/-- Enumeration chain: base type with its own enumeration facet; its
`base` reference `t:C2` resolves to nothing, ending the chain. -/
def typeB2 : XNode := simpleTypeNamed "B2" [restrictionOf "t:C2" [enumFacet "y"]]

/-- The document of the two-level enumeration chain. -/
def enumDoc : XNode := schemaT [typeA2, typeB2]

/-- The catalog holding the enumeration-chain document. -/
def enumLib : XsdLib := initLib [enumDoc]

/-- Fixed-facet chain: derived type fixing `totalDigits` and declaring
an unfixed `maxLength`, restricting `t:B5`. -/
def typeA5 : XNode :=
  simpleTypeNamed "A5" [restrictionOf "t:B5" [facetFixed "totalDigits" "5", facetN "maxLength" "10"]]

/-- Fixed-facet chain: base type declaring `totalDigits` and `maxLength`
unfixed; its `base` reference `t:C5` resolves to nothing. -/
def typeB5 : XNode :=
  simpleTypeNamed "B5" [restrictionOf "t:C5" [facetN "totalDigits" "7", facetN "maxLength" "20"]]

/-- The document of the fixed-facet chain. -/
def fixedDoc : XNode := schemaT [typeA5, typeB5]

/-- The catalog holding the fixed-facet document. -/
def fixedLib : XsdLib := initLib [fixedDoc]

/-- An element declaration with neither an embedded type nor a `type`
attribute. -/
def elemNoType : XNode := elemNamed "e"

/-- The catalog with no user documents. -/
def emptyLib : XsdLib := initLib []

/-- An anonymous complex type whose content declares the particle `c`. -/
def ctR : XNode :=
  XNode.mk xsNs "complexType" [] [] [XNode.mk xsNs "sequence" [] [] [elemNamed "c"]]

/-- The root element declaration `r` with embedded type `ctR`. -/
def elemR : XNode := XNode.mk xsNs "element" [("name", "r")] [] [ctR]

/-- A document declaring the root element `r`. -/
def rootDoc : XNode := schemaT [elemR]

/-- The catalog holding `rootDoc`. -/
def rootLib : XsdLib := initLib [rootDoc]

/-- The instance-document root element `<r>` (namespace `urn:t`), with
no `xsi:type` attribute. -/
def rInst : XNode := XNode.mk "urn:t" "r" [] [] []

/-- The instance-document element `<c>` whose governing definition is
sought. -/
def cInst : XNode := XNode.mk "urn:t" "c" [] [] []

/-- A document with no `targetNamespace` attribute. -/
def noNsDoc : XNode := XNode.mk xsNs "schema" [] [] []

/-- First document under `urn:t`, declaring type `T`. -/
def docX : XNode := schemaT [simpleTypeNamed "T" [restrictionOf "xs:string" []]]

/-- Second document under `urn:t`, also declaring a type named `T`. -/
def docY : XNode := schemaT [simpleTypeNamed "T" [restrictionOf "xs:decimal" []]]

/-- The catalog with the two overlapping documents, `docX` registered
first. -/
def dupLib : XsdLib := initLib [docX, docY]

/-- Extension chain: base complex type `E` with particle `e1`. -/
def ctE : XNode :=
  XNode.mk xsNs "complexType" [("name", "E")] [] [XNode.mk xsNs "sequence" [] [] [elemNamed "e1"]]

/-- Extension chain: derived complex type `D` extending `t:E`, adding
particle `d1` and one assertion. -/
def ctD : XNode :=
  XNode.mk xsNs "complexType" [("name", "D")] []
    [XNode.mk xsNs "complexContent" [] []
      [XNode.mk xsNs "extension" [("base", "t:E")] []
        [XNode.mk xsNs "sequence" [] [] [elemNamed "d1"],
         XNode.mk xsNs "assert" [("test", "true()")] [] []]]]

/-- The document of the extension chain. -/
def extDoc : XNode := schemaT [ctD, ctE]

/-- The catalog holding the extension-chain document. -/
def extLib : XsdLib := initLib [extDoc]

/-! ## Definitions supporting the statements of the claims -/

/-- A sequence of `addItem` calls applied in order. -/
def applyOps (ops : List (XNode × Option String)) (st : XsdLib) : XsdLib :=
  ops.foldl (fun s p => addItem s p.1 p.2) st

/-- The concatenation of a per-level collection over a chain of type
definitions, most-derived level first. -/
def concatMapCT (f : XNode → List XNode) : List XNode → List XNode
  | [] => []
  | t :: r => f t ++ concatMapCT f r

/-- A finite extension chain: each type's `findExtendedType` resolves to
the next, and the last type has no further extension base. -/
def IsExtChain (st : XsdLib) : XNode → List XNode → Prop
  | t, [] => findExtendedType st t = none
  | t, u :: r => findExtendedType st t = some u ∧ IsExtChain st u r

/-- The number of enumeration groups in a facet result. -/
def countEnumGroups : List FacetEntry → Nat
  | [] => 0
  | FacetEntry.enumGroup _ :: r => countEnumGroups r + 1
  | FacetEntry.facet _ :: r => countEnumGroups r

/-- The enumeration budget still available given the found-facet list:
zero once `enumeration` has been recorded. -/
def enumBudget (fd : List String) : Nat :=
  if fd.contains "enumeration" = true then 0 else 1

/-- The number of plain facet entries of the given kind in a result. -/
def countFacetKind (k : String) : List FacetEntry → Nat
  | [] => 0
  | FacetEntry.facet f :: r => (if f.localName == k then 1 else 0) + countFacetKind k r
  | FacetEntry.enumGroup _ :: r => countFacetKind k r

/-! ## Helper lemmas about the namespace store -/

theorem lookupNs_storeNs_self (l : List (String × List XNode)) (k : String) (v : List XNode) :
    lookupNs (storeNs l k v) k = some v := by
  induction l with
  | nil => simp [lookupNs, storeNs]
  | cons p rest ih =>
    cases hb : (p.1 == k) with
    | true => simp [lookupNs, storeNs, hb]
    | false => simp [lookupNs, storeNs, hb, ih]

theorem lookupNs_storeNs_other (l : List (String × List XNode)) (k k' : String)
    (v : List XNode) (hk : k' ≠ k) :
    lookupNs (storeNs l k v) k' = lookupNs l k' := by
  have hkk : (k == k') = false := by
    simp only [beq_eq_false_iff_ne]
    exact fun h => hk h.symm
  induction l with
  | nil => simp [lookupNs, storeNs, hkk]
  | cons p rest ih =>
    cases hb : (p.1 == k) with
    | true =>
      have hp1 : p.1 = k := by simpa using hb
      have hpk : (p.1 == k') = false := by rw [hp1]; exact hkk
      simp [lookupNs, storeNs, hb, hkk, hpk]
    | false => simp [lookupNs, storeNs, hb, ih]

/-- How `addItem` acts on every key: the document's bucket gets the
document appended (the bucket being created when absent); every other
bucket is untouched. -/
theorem getItem_addItem (st : XsdLib) (d : XNode) (nm : Option String) (k : String) :
    getItem (addItem st d nm) k =
      if nsKey (jsOrStr nm (d.getAttribute "targetNamespace")) = k then
        some ((getItem st k).getD [] ++ [d])
      else getItem st k := by
  unfold addItem getItem setItem
  split
  next h =>
    rw [← h]
    exact lookupNs_storeNs_self st.items _ _
  next h =>
    exact lookupNs_storeNs_other st.items _ k _ (fun hkk => h hkk.symm)

/-! ## Registration and lookup claims -/

/-- C4 counterexample: a document with no resolvable target namespace
and no supplied namespace is registered without any error — the catalog
built from it holds the document under the `"null"` key.  The claim
says this construction fails with `InvalidSchemaError`; the source has
no such error path at all. -/
theorem c4_counterexample :
    noNsDoc.getAttribute "targetNamespace" = none ∧
    getItem (initLib [noNsDoc]) "null" = some [noNsDoc] := ⟨rfl, rfl⟩

/-- C4 (amended): registering a document that has no resolvable target
namespace, with no namespace supplied, silently succeeds: the document
is appended to the bucket of the `"null"` key (the JS coercion of the
null namespace) and no `InvalidSchemaError` is raised. -/
theorem c4_amended_silent_null_registration :
    ∀ (st : XsdLib) (doc : XNode), doc.getAttribute "targetNamespace" = none →
      getItem (addItem st doc none) "null" =
        some ((getItem st "null").getD [] ++ [doc]) := by
  intro st doc h
  have hA := getItem_addItem st doc none "null"
  rw [h] at hA
  simpa [jsOrStr, nsKey] using hA

/-- C4 witness: the amended statement evaluated on the concrete
namespace-less document. -/
theorem c4_witness :
    noNsDoc.getAttribute "targetNamespace" = none ∧
    getItem (addItem emptyLib noNsDoc none) "null" = some [noNsDoc] := by
  refine ⟨rfl, ?_⟩
  rw [c4_amended_silent_null_registration emptyLib noNsDoc rfl]
  rfl

/-- C10: for a namespace under which no document has ever been
registered (its bucket is absent), `findElement` and `findTypeByName`
return null for every name — the missing bucket is read as an empty
document sequence and no error is raised. -/
theorem c10_unregistered_namespace_is_null :
    ∀ (st : XsdLib) (ns nm : String), getItem st ns = none →
      findElement st ns nm = none ∧ findTypeByName st ns nm = none := by
  intro st ns nm h
  unfold findElement findTypeByName
  rw [h]
  exact ⟨rfl, rfl⟩

/-- C10 witness: the fresh catalog has no bucket for `urn:missing`, and
both lookups return null there. -/
theorem c10_witness :
    getItem emptyLib "urn:missing" = none ∧
    findElement emptyLib "urn:missing" "e" = none ∧
    findTypeByName emptyLib "urn:missing" "T" = none :=
  ⟨rfl, (c10_unregistered_namespace_is_null emptyLib "urn:missing" "e" rfl).1,
    (c10_unregistered_namespace_is_null emptyLib "urn:missing" "T" rfl).2⟩

/-- C7: `addItem` appends the document to its namespace's bucket
(creating the bucket when absent) with no de-duplication — the same
document may occur twice — and `findTypeByName` scans the bucket in
registration order and returns the first document's match, so when two
registered documents both declare a type of the sought name, the
definition of the document registered first is returned. -/
theorem c7_registration_order :
    (∀ (st : XsdLib) (d : XNode) (ns : String), ns ≠ "" →
       getItem (addItem st d (some ns)) ns = some ((getItem st ns).getD [] ++ [d])) ∧
    (∀ (st : XsdLib) (ns nm : String) (d1 : XNode) (rest : List XNode) (t : XNode),
       getItem st ns = some (d1 :: rest) → xsdFindTypeByName d1 nm = some t →
       findTypeByName st ns nm = some t) := by
  constructor
  · intro st d ns hns
    have hA := getItem_addItem st d (some ns) ns
    have hkey : nsKey (jsOrStr (some ns) (d.getAttribute "targetNamespace")) = ns := by
      simp [jsOrStr, nsKey, hns]
    rw [hkey] at hA
    simpa using hA
  · intro st ns nm d1 rest t h1 h2
    unfold findTypeByName
    rw [h1]
    show firstSomeTypes nm (d1 :: rest) = some t
    unfold firstSomeTypes
    rw [h2]

/-- C7 witness: two documents registered under `urn:t`, each declaring a
type named `T`; the lookup returns the first document's definition, and
re-adding the first document again neither fails nor de-duplicates. -/
theorem c7_witness :
    getItem dupLib "urn:t" = some [docX, docY] ∧
    findTypeByName dupLib "urn:t" "T" =
      some (simpleTypeNamed "T" [restrictionOf "xs:string" []]) ∧
    getItem (addItem dupLib docX (some "urn:t")) "urn:t" = some [docX, docY, docX] := by
  refine ⟨rfl, ?_, ?_⟩
  · exact c7_registration_order.2 dupLib "urn:t" "T" docX [docY] _ rfl rfl
  · rw [c7_registration_order.1 dupLib docX "urn:t" (by decide)]
    rfl

theorem addItem_keeps_head (st : XsdLib) (doc : XNode) (nm : Option String)
    (k : String) (d : XNode) (l : List XNode)
    (h : getItem st k = some (d :: l)) :
    ∃ l', getItem (addItem st doc nm) k = some (d :: l') := by
  rw [getItem_addItem st doc nm k]
  split
  · exact ⟨l ++ [doc], by rw [h]; rfl⟩
  · exact ⟨l, h⟩

theorem applyOps_keeps_head (ops : List (XNode × Option String)) :
    ∀ (st : XsdLib) (d : XNode) (l : List XNode),
      getItem st xsNs = some (d :: l) →
      ∃ l', getItem (applyOps ops st) xsNs = some (d :: l') := by
  induction ops with
  | nil => intro st d l h; exact ⟨l, h⟩
  | cons op rest ih =>
    intro st d l h
    obtain ⟨l', h'⟩ := addItem_keeps_head st op.1 op.2 xsNs d l h
    exact ih (addItem st op.1 op.2) d l' h'

/-- C9: in every catalog state reachable by construction from any
initial documents followed by any sequence of `addItem` calls, the
built-in basetypes document is present and first in the bucket of its
own fixed namespace (the XML Schema namespace); no operation removes
it. -/
theorem c9_basetypes_always_first :
    ∀ (defs : List XNode) (ops : List (XNode × Option String)),
      ∃ rest, getItem (applyOps ops (initLib defs)) xsNs = some (basetypesDoc :: rest) := by
  intro defs ops
  have hInit : ∃ l, getItem (initLib defs) xsNs = some (basetypesDoc :: l) := by
    have hBase : getItem (addItem ⟨[]⟩ basetypesDoc none) xsNs = some (basetypesDoc :: []) := rfl
    have hFold : initLib defs =
        applyOps (defs.map (fun d => (d, none))) (addItem ⟨[]⟩ basetypesDoc none) := by
      unfold initLib applyOps
      rw [List.foldl_cons, List.foldl_map]
    rw [hFold]
    exact applyOps_keeps_head _ _ basetypesDoc [] hBase
  obtain ⟨l, hl⟩ := hInit
  exact applyOps_keeps_head ops _ basetypesDoc l hl

/-! ## Cyclic restriction chains (C1) -/

theorem findRestrictedType_cycA : findRestrictedType cycLib typeA = some typeB := rfl

theorem findRestrictedType_cycB : findRestrictedType cycLib typeB = some typeA := rfl

theorem collectFacetsLevel_cycA (f : List FacetEntry) (fd : List String) :
    collectFacetsLevel typeA f fd = ⟨f, [], fd⟩ := rfl

theorem collectFacetsLevel_cycB (f : List FacetEntry) (fd : List String) :
    collectFacetsLevel typeB f fd = ⟨f, [], fd⟩ := rfl

theorem cyc_walks_run_forever :
    ∀ (n : Nat) (f : List FacetEntry) (fd : List String),
      findBaseTypeForAux cycLib n typeA = none ∧
      findBaseTypeForAux cycLib n typeB = none ∧
      collectFacetsAux cycLib n (some typeA) f fd = none ∧
      collectFacetsAux cycLib n (some typeB) f fd = none := by
  intro n
  induction n with
  | zero => intro f fd; exact ⟨rfl, rfl, rfl, rfl⟩
  | succ k ih =>
    intro f fd
    refine ⟨?_, ?_, ?_, ?_⟩
    · show findBaseTypeForAux cycLib (k + 1) typeA = none
      simp only [findBaseTypeForAux, findRestrictedType_cycA]
      exact (ih f fd).2.1
    · show findBaseTypeForAux cycLib (k + 1) typeB = none
      simp only [findBaseTypeForAux, findRestrictedType_cycB]
      exact (ih f fd).1
    · show collectFacetsAux cycLib (k + 1) (some typeA) f fd = none
      simp only [collectFacetsAux, collectFacetsLevel_cycA, findRestrictedType_cycA]
      exact (ih f fd).2.2.2
    · show collectFacetsAux cycLib (k + 1) (some typeB) f fd = none
      simp only [collectFacetsAux, collectFacetsLevel_cycB, findRestrictedType_cycB]
      exact (ih f fd).2.2.1

/-- C1: on a cyclic restriction chain (`A` restricts `B` and `B`
restricts `A`) neither `findBaseTypeFor` nor `collectFacets` ever
terminates: for every iteration bound the loop is still running (the
fuelled model returns the still-running marker `none` for every fuel).
The source has no visited-set, depth bound or `MalformedChainError`:
instead of failing with an explicit error it loops forever. -/
theorem c1_cyclic_chain_loops_forever :
    (∀ fuel, findBaseTypeFor cycLib fuel typeA = none) ∧
    (∀ fuel, collectFacets cycLib fuel typeA = none) :=
  ⟨fun fuel => (cyc_walks_run_forever fuel [] []).1,
   fun fuel => (cyc_walks_run_forever fuel [] []).2.2.1⟩

/-! ## Instance-node-to-definition mapping (C6, C3) -/

theorem collectAncestorsUntil_all (pred : XNode → Bool) :
    ∀ (anc : List XNode), (∀ a ∈ anc, pred a = false) →
      collectAncestorsUntil anc pred = anc := by
  intro anc
  induction anc with
  | nil => intro _; rfl
  | cons a rest ih =>
    intro h
    unfold collectAncestorsUntil
    rw [h a (List.mem_cons_self a rest)]
    simp only [Bool.false_eq_true, if_false]
    rw [ih (fun b hb => h b (List.mem_cons_of_mem a hb))]

theorem descendLoop_all_null (st : XsdLib) :
    ∀ (l : List XNode),
      (∀ a ∈ l, getTypeFromNodeAttr a "type" (some xsiNs) = none) →
      descendLoop st none l = Except.ok none := by
  intro l
  induction l with
  | nil => intro _; rfl
  | cons p rest ih =>
    intro h
    show descendLoop st (findTypeDefinitionFromNodeAttr st p "type" (some xsiNs)) rest = _
    have hp : findTypeDefinitionFromNodeAttr st p "type" (some xsiNs) = none := by
      unfold findTypeDefinitionFromNodeAttr
      rw [h p (List.mem_cons_self p rest)]
    rw [hp]
    exact ih (fun b hb => h b (List.mem_cons_of_mem p hb))

/-- C6 (amended): the outermost collected ancestor's definition is
resolved only from its `xsi:type` override; there is no root-element
fallback.  When no ancestor carries an `xsi:type`, every loop step
leaves the resolution accumulator null and the final descent
dereferences null and throws a TypeError. -/
theorem c6_amended_no_root_fallback :
    ∀ (st : XsdLib) (node : XNode) (anc : List XNode),
      (∀ a ∈ anc, getTypeFromNodeAttr a "type" (some xsiNs) = none) →
      findElementForXmlNode st node anc = Except.error () := by
  intro st node anc h
  unfold findElementForXmlNode
  rw [collectAncestorsUntil_all _ anc
        (fun a ha => by rw [h a ha]; rfl)]
  show (match descendLoop st none anc.reverse with
        | Except.ok xsdNode => findXsdSubNode st xsdNode node.localName
        | Except.error e => Except.error e) = Except.error ()
  rw [descendLoop_all_null st anc.reverse
        (fun a ha => h a (List.mem_reverse.mp ha))]
  rfl

/-- C6 counterexample: the catalog declares the root element `r` (so the
claimed root-element fallback would resolve it — `findElement` finds
it), yet `findElementForXmlNode` on the instance node `<c>` under the
override-free root `<r>` throws instead of resolving `c`'s
definition. -/
theorem c6_counterexample :
    findElement rootLib "urn:t" "r" = some elemR ∧
    findElementForXmlNode rootLib cInst [rInst] = Except.error () := ⟨rfl, rfl⟩

/-- C6 witness: the amended statement evaluated on the concrete
override-free instance. -/
theorem c6_witness :
    (∀ a ∈ [rInst], getTypeFromNodeAttr a "type" (some xsiNs) = none) ∧
    findElementForXmlNode rootLib cInst [rInst] = Except.error () := by
  have hp : ∀ a ∈ [rInst], getTypeFromNodeAttr a "type" (some xsiNs) = none := by
    intro a ha
    have : a = rInst := by simpa using ha
    rw [this]
    rfl
  exact ⟨hp, c6_amended_no_root_fallback rootLib cInst [rInst] hp⟩

/-- C3 counterexample: `findElementType` on an element with neither an
embedded type nor a `type` attribute throws (the source dereferences the
null `tdef`) instead of returning the not-found sentinel. -/
theorem c3_counterexample :
    getEmbeddedType elemNoType = none ∧
    elemNoType.getAttribute "type" = none ∧
    findElementType emptyLib elemNoType = Except.error () := ⟨rfl, rfl, rfl⟩

/-- C3 (amended): the by-name lookups do return null without throwing —
in particular an absent type attribute makes
`findTypeDefinitionFromNodeAttr` return null — but `findElementType` on
an element with neither an embedded type nor a `type` attribute throws a
TypeError instead of returning not-found. -/
theorem c3_lookup_failure_behavior :
    (∀ (st : XsdLib) (elem : XNode), getEmbeddedType elem = none →
       getTypeFromNodeAttr elem "type" none = none →
       findElementType st elem = Except.error ()) ∧
    (∀ (st : XsdLib) (node : XNode) (a : String) (ns : Option String),
       getTypeFromNodeAttr node a ns = none →
       findTypeDefinitionFromNodeAttr st node a ns = none) := by
  constructor
  · intro st elem h1 h2
    unfold findElementType
    rw [h1, h2]
  · intro st node a ns h
    unfold findTypeDefinitionFromNodeAttr
    rw [h]

/-- C3 witness: the amended statement evaluated on the concrete
type-less element declaration. -/
theorem c3_witness :
    getEmbeddedType elemNoType = none ∧
    getTypeFromNodeAttr elemNoType "type" none = none ∧
    findElementType emptyLib elemNoType = Except.error () ∧
    findTypeDefinitionFromNodeAttr emptyLib elemNoType "type" none = none :=
  ⟨rfl, rfl, c3_lookup_failure_behavior.1 emptyLib elemNoType rfl rfl,
    c3_lookup_failure_behavior.2 emptyLib elemNoType "type" none rfl⟩

/-! ## Complex-type element and assertion collection (C8) -/

theorem getCTElemsAux_stopped (st : XsdLib) (n : Nat) (acc : List XNode) :
    getCTElemsAux st n none acc = some acc := by
  cases n <;> rfl

theorem getCTAssertsAux_stopped (st : XsdLib) (n : Nat) (acc : List XNode) :
    getCTAssertsAux st n none acc = some acc := by
  cases n <;> rfl

theorem getCTElemsAux_chain (st : XsdLib) :
    ∀ (rest : List XNode) (t : XNode) (n : Nat) (acc : List XNode),
      IsExtChain st t rest → rest.length < n →
      getCTElemsAux st n (some t) acc =
        some (acc ++ concatMapCT xsdGetComplexTypeElements (t :: rest)) := by
  intro rest
  induction rest with
  | nil =>
    intro t n acc hc hn
    cases n with
    | zero => omega
    | succ m =>
      show getCTElemsAux st m (findExtendedType st t) (acc ++ xsdGetComplexTypeElements t) = _
      rw [hc, getCTElemsAux_stopped]
      simp [concatMapCT]
  | cons u r ih =>
    intro t n acc hc hn
    cases n with
    | zero => omega
    | succ m =>
      show getCTElemsAux st m (findExtendedType st t) (acc ++ xsdGetComplexTypeElements t) = _
      rw [hc.1, ih u m _ hc.2 (by simpa using hn)]
      simp [concatMapCT]

theorem getCTAssertsAux_chain (st : XsdLib) :
    ∀ (rest : List XNode) (t : XNode) (n : Nat) (acc : List XNode),
      IsExtChain st t rest → rest.length < n →
      getCTAssertsAux st n (some t) acc =
        some (acc ++ concatMapCT xsdGetComplexTypeAsserts (t :: rest)) := by
  intro rest
  induction rest with
  | nil =>
    intro t n acc hc hn
    cases n with
    | zero => omega
    | succ m =>
      show getCTAssertsAux st m (findExtendedType st t) (acc ++ xsdGetComplexTypeAsserts t) = _
      rw [hc, getCTAssertsAux_stopped]
      simp [concatMapCT]
  | cons u r ih =>
    intro t n acc hc hn
    cases n with
    | zero => omega
    | succ m =>
      show getCTAssertsAux st m (findExtendedType st t) (acc ++ xsdGetComplexTypeAsserts t) = _
      rw [hc.1, ih u m _ hc.2 (by simpa using hn)]
      simp [concatMapCT]

/-- C8: over any finite extension chain, `getComplexTypeElements` and
`getComplexTypeAsserts` return exactly the flattened concatenation of
the per-level particle (respectively assertion) nodes, ordered from the
given (most-derived) type outward to the last ancestor, with no
de-duplication of any kind. -/
theorem c8_flattened_concatenation :
    ∀ (st : XsdLib) (t : XNode) (rest : List XNode) (fuel : Nat),
      IsExtChain st t rest → rest.length < fuel →
      getComplexTypeElements st fuel t =
          some (concatMapCT xsdGetComplexTypeElements (t :: rest)) ∧
      getComplexTypeAsserts st fuel t =
          some (concatMapCT xsdGetComplexTypeAsserts (t :: rest)) := by
  intro st t rest fuel hc hn
  constructor
  · have h := getCTElemsAux_chain st rest t fuel [] hc hn
    simpa using h
  · have h := getCTAssertsAux_chain st rest t fuel [] hc hn
    simpa using h

/-- C8 witness: the concrete two-level extension chain `D` extending
`E`; the result lists the derived type's particle `d1` before the base
type's `e1`, and the derived type's assertion is collected. -/
theorem c8_witness :
    IsExtChain extLib ctD [ctE] ∧ [ctE].length < 2 ∧
    getComplexTypeElements extLib 2 ctD =
      some (concatMapCT xsdGetComplexTypeElements (ctD :: [ctE])) ∧
    getComplexTypeAsserts extLib 2 ctD =
      some (concatMapCT xsdGetComplexTypeAsserts (ctD :: [ctE])) := by
  have hc : IsExtChain extLib ctD [ctE] := ⟨rfl, rfl⟩
  have hn : [ctE].length < 2 := by decide
  exact ⟨hc, hn, (c8_flattened_concatenation extLib ctD [ctE] 2 hc hn).1,
    (c8_flattened_concatenation extLib ctD [ctE] 2 hc hn).2⟩

/-! ## Facet collection: enumeration handling (C2) -/

theorem countEnumGroups_cons_facet (x : XNode) (r : List FacetEntry) :
    countEnumGroups (FacetEntry.facet x :: r) = countEnumGroups r := rfl

theorem countEnumGroups_cons_group (g : List XNode) (r : List FacetEntry) :
    countEnumGroups (FacetEntry.enumGroup g :: r) = countEnumGroups r + 1 := rfl

theorem countEnumGroups_append (a b : List FacetEntry) :
    countEnumGroups (a ++ b) = countEnumGroups a + countEnumGroups b := by
  induction a with
  | nil => simp [countEnumGroups]
  | cons e r ih =>
    cases e with
    | facet f =>
      rw [List.cons_append, countEnumGroups_cons_facet, countEnumGroups_cons_facet, ih]
    | enumGroup g =>
      rw [List.cons_append, countEnumGroups_cons_group, countEnumGroups_cons_group, ih]
      omega

theorem contains_append_left (l m : List String) (x : String) (h : l.contains x = true) :
    (l ++ m).contains x = true := by
  simp at h ⊢
  exact Or.inl h

theorem contains_append_self (l : List String) (x : String) :
    (l ++ [x]).contains x = true := by
  simp

theorem processFacet_count (st : CFState) (f : XNode) :
    countEnumGroups (processFacet st f).facets = countEnumGroups st.facets := by
  simp only [processFacet]
  split
  · split
    · rfl
    · simp [countEnumGroups_append, countEnumGroups]
  · rfl

theorem processFacet_found_mono (st : CFState) (f : XNode) (x : String)
    (h : st.found.contains x = true) :
    (processFacet st f).found.contains x = true := by
  simp only [processFacet]
  split
  · split
    · exact h
    · exact contains_append_left st.found [f.localName] x h
  · exact h

theorem processFacet_enums_done (st : CFState) (f : XNode)
    (h : st.found.contains "enumeration" = true) :
    (processFacet st f).enums = st.enums := by
  simp only [processFacet]
  split
  next hc =>
    split
    next hEnum =>
      exfalso
      have hfe : f.localName = "enumeration" := by simpa using hEnum
      rw [hfe, h] at hc
      simp at hc
    next => rfl
  next => rfl

theorem foldl_processFacet_count (fs : List XNode) :
    ∀ (st : CFState),
      countEnumGroups ((fs.foldl processFacet st).facets) = countEnumGroups st.facets := by
  induction fs with
  | nil => intro st; rfl
  | cons f r ih =>
    intro st
    rw [List.foldl_cons, ih, processFacet_count]

theorem foldl_processFacet_found_mono (fs : List XNode) :
    ∀ (st : CFState) (x : String), st.found.contains x = true →
      (fs.foldl processFacet st).found.contains x = true := by
  induction fs with
  | nil => intro st x h; exact h
  | cons f r ih =>
    intro st x h
    rw [List.foldl_cons]
    exact ih _ x (processFacet_found_mono st f x h)

theorem foldl_processFacet_enums_done (fs : List XNode) :
    ∀ (st : CFState), st.found.contains "enumeration" = true →
      (fs.foldl processFacet st).enums = st.enums := by
  induction fs with
  | nil => intro st h; rfl
  | cons f r ih =>
    intro st h
    rw [List.foldl_cons, ih _ (processFacet_found_mono st f _ h),
        processFacet_enums_done st f h]

theorem levelFinish_bound (st : CFState) (f : List FacetEntry) (fd : List String)
    (hcount : countEnumGroups st.facets = countEnumGroups f)
    (hmono : fd.contains "enumeration" = true → st.found.contains "enumeration" = true)
    (hdone : fd.contains "enumeration" = true → st.enums = []) :
    countEnumGroups (levelFinish st).facets + enumBudget (levelFinish st).found ≤
      countEnumGroups f + enumBudget fd := by
  unfold levelFinish
  by_cases hE : st.enums.isEmpty = true
  · rw [if_pos hE]
    cases hfd : fd.contains "enumeration" with
    | true =>
      unfold enumBudget
      rw [hfd, hmono hfd, hcount]
    | false =>
      unfold enumBudget
      rw [hfd, hcount]
      cases hsf : st.found.contains "enumeration" <;> simp
  · rw [if_neg hE]
    have hfd : fd.contains "enumeration" = false := by
      cases hfd : fd.contains "enumeration" with
      | true =>
        exfalso
        exact hE (by rw [hdone hfd]; rfl)
      | false => rfl
    unfold enumBudget
    rw [hfd]
    simp only [countEnumGroups_append, hcount, contains_append_self]
    simp [countEnumGroups]

theorem collectFacetsLevel_bound (t : XNode) (f : List FacetEntry) (fd : List String) :
    countEnumGroups (collectFacetsLevel t f fd).facets +
        enumBudget (collectFacetsLevel t f fd).found ≤
      countEnumGroups f + enumBudget fd := by
  unfold collectFacetsLevel
  apply levelFinish_bound
  · exact foldl_processFacet_count _ ⟨f, [], fd⟩
  · intro h; exact foldl_processFacet_found_mono _ ⟨f, [], fd⟩ _ h
  · intro h; exact foldl_processFacet_enums_done _ ⟨f, [], fd⟩ h

theorem collectFacetsAux_enum_bound (lib : XsdLib) :
    ∀ (n : Nat) (ct : Option XNode) (f : List FacetEntry) (fd : List String)
      (l : List FacetEntry),
      collectFacetsAux lib n ct f fd = some l →
      countEnumGroups l ≤ countEnumGroups f + enumBudget fd := by
  intro n
  induction n with
  | zero =>
    intro ct f fd l h
    cases ct with
    | none =>
      have hl : f = l := by simpa [collectFacetsAux] using h
      rw [← hl]
      omega
    | some t => simp [collectFacetsAux] at h
  | succ k ih =>
    intro ct f fd l h
    cases ct with
    | none =>
      have hl : f = l := by simpa [collectFacetsAux] using h
      rw [← hl]
      omega
    | some t =>
      have h' : collectFacetsAux lib k (findRestrictedType lib t)
          (collectFacetsLevel t f fd).facets (collectFacetsLevel t f fd).found = some l := h
      have hb := ih _ _ _ _ h'
      have hl := collectFacetsLevel_bound t f fd
      omega

/-- C2 (amended): `collectFacets` groups a level's enumeration facets
into one group appended after that level's other facets, but enumeration
accumulation stops at the first contributing level: once any level has
contributed an enumeration group, enumeration facets of all farther
(ancestor) levels are discarded, so the result contains at most one
enumeration group — the most-derived contributing level's. -/
theorem c2_amended_at_most_one_enum_group :
    ∀ (lib : XsdLib) (fuel : Nat) (t : XNode) (l : List FacetEntry),
      collectFacets lib fuel t = some l → countEnumGroups l ≤ 1 := by
  intro lib fuel t l h
  have hb := collectFacetsAux_enum_bound lib fuel (some t) [] [] l h
  simpa [countEnumGroups, enumBudget] using hb

/-- C2 counterexample: on the two-level chain `A2` (enumeration `x`)
restricting `B2` (enumeration `y`), the claim predicts one enumeration
group per level — `[[x], [y]]` — but the source records only the
most-derived level's group `[[x]]`: after the first group is recorded,
`enumeration` is marked found and the ancestor level's enumeration
facets are dropped. -/
theorem c2_counterexample :
    collectFacets enumLib 3 typeA2 = some [FacetEntry.enumGroup [enumFacet "x"]] ∧
    countEnumGroups ((collectFacets enumLib 3 typeA2).getD []) = 1 := ⟨rfl, rfl⟩

/-- C2 witness: the amended bound evaluated on the concrete two-level
enumeration chain. -/
theorem c2_witness :
    collectFacets enumLib 3 typeA2 = some [FacetEntry.enumGroup [enumFacet "x"]] ∧
    countEnumGroups [FacetEntry.enumGroup [enumFacet "x"]] ≤ 1 :=
  ⟨rfl, c2_amended_at_most_one_enum_group enumLib 3 typeA2 _ rfl⟩

/-! ## Facet collection: the fixed-facet rule (C5) -/

/-- C5 counterexample: on the chain where the derived type `A5` fixes
`totalDigits` (`fixed="true"`) and the base type `B5` declares an
unfixed `totalDigits`, the claim predicts both `totalDigits`
occurrences recorded; the source records only the derived one — the
base occurrence is unfixed and its kind is already found, so it is
discarded.  (The fixed-coexistence rule works in the other direction:
it is the deeper occurrence's own fixedness that forces recording.) -/
theorem c5_counterexample :
    collectFacets fixedLib 3 typeA5 =
      some [FacetEntry.facet (facetFixed "totalDigits" "5"),
            FacetEntry.facet (facetN "maxLength" "10")] ∧
    countFacetKind "totalDigits" ((collectFacets fixedLib 3 typeA5).getD []) = 1 ∧
    countFacetKind "maxLength" ((collectFacets fixedLib 3 typeA5).getD []) = 1 := ⟨rfl, rfl, rfl⟩

/-- C5 (amended): in `processFacet`, a non-enumeration facet that is
itself fixed (`fixed="true"` or an `assertion`, always treated as
fixed) is always recorded, even when a facet of the same kind was
already recorded at a nearer level; a non-enumeration unfixed facet
whose kind was already recorded is discarded (first occurrence wins).
Hence a derived fixed `totalDigits` does not protect the base's unfixed
`totalDigits` — rather, a base facet coexists only when it is fixed
itself — and an unfixed derived `maxLength` suppresses the base's
`maxLength`. -/
theorem c5_amended_fixed_direction :
    (∀ (st : CFState) (f : XNode), (f.localName == "enumeration") = false →
       ((f.localName == "assertion") = true ∨ (f.getAttribute "fixed" == some "true") = true) →
       (processFacet st f).facets = st.facets ++ [FacetEntry.facet f]) ∧
    (∀ (st : CFState) (f : XNode), (f.localName == "enumeration") = false →
       (f.localName == "assertion") = false →
       (f.getAttribute "fixed" == some "true") = false →
       st.found.contains f.localName = true →
       processFacet st f = st) := by
  constructor
  · intro st f h1 h2
    rcases h2 with h2 | h2 <;> simp [processFacet, h1, h2]
  · intro st f h1 h2 h3 h4
    have h4m : f.localName ∈ st.found := by simpa using h4
    simp [processFacet, h1, h2, h3, h4m]

/-- C5 witness: the amended rule evaluated concretely — the fixed
`totalDigits` facet is recorded although `totalDigits` is already
found, and the unfixed`totalDigits` facet of the base is dropped in the
same situation. -/
theorem c5_witness :
    (processFacet ⟨[], [], ["totalDigits"]⟩ (facetFixed "totalDigits" "5")).facets =
      [FacetEntry.facet (facetFixed "totalDigits" "5")] ∧
    processFacet ⟨[], [], ["totalDigits"]⟩ (facetN "totalDigits" "7") =
      ⟨[], [], ["totalDigits"]⟩ := by
  constructor
  · have h := c5_amended_fixed_direction.1 ⟨[], [], ["totalDigits"]⟩
      (facetFixed "totalDigits" "5") rfl (Or.inr rfl)
    simpa using h
  · exact c5_amended_fixed_direction.2 ⟨[], [], ["totalDigits"]⟩
      (facetN "totalDigits" "7") rfl rfl rfl rfl
